import Mathlib

/-!
Verification of the concurrent language-enrichment and filtering pipeline of
`subscribe_service.py` (class `SubscribeService`), together with its language
resolver, per-item detail fetcher and subscription orchestrators.

Modelling conventions:
* A Python dict item is the structure `MediaItem`; fields that may be absent
  in the dict are `Option`-valued (`item.get(k)` is the field itself,
  `item.get(k, d)` is `.getD d`).
* The thread pool of `_enrich_and_filter_by_lang` is modelled by making the
  engine a function of the completion sequence `order` (the order in which
  `as_completed` yields the futures, a sequence of indices into the input
  list) and of `fetch : Nat -> Option String`, the outcome of
  `future.result()` for each task (`none` models a raised exception, which
  the loop swallows with `except Exception: pass`).
* In-place mutation of the shared item dicts (`item["_original_language"] =
  item_lang`) is explicit state passing of a function `Nat -> MediaItem`.
* Upstream HTTP clients are parameters; a call that may raise is
  `Except Unit`-valued.
-/

/-- A media item dict as produced by the MoviePilot listing endpoints and
consumed by `SubscribeService`.  Only the keys the verified code reads are
modelled: `tmdb_id`, `type`, `title`, `original_language`, and the mutable
`_original_language` stamp written by the enrichment engine (initially
absent, i.e. `none`). -/
structure MediaItem where
  tmdbId : Option Int
  mtype : Option String
  title : String
  rawLang : String
  origLang : Option String
deriving Repr, DecidableEq, Inhabited

/-- Python `s.lower()` (per-character lowercasing). -/
def pyLower (s : String) : String := ⟨s.data.map Char.toLower⟩

/-- Python truthiness of an optional string: `None` and `""` are falsy. -/
def pyTruthy : Option String → Bool
  | none => false
  | some s => s != ""

/-- Python `a or b` on an optional string `a` with string fallback `b`:
yields `a`'s value when it is truthy, else `b`. -/
def pyOrStr (a : Option String) (b : String) : String :=
  match a with
  | none => b
  | some s => if s = "" then b else s

/-- `LANGUAGE_MAP`, the static synonym table of `subscribe_service.py`
(line 11): maps Chinese names, English names and codes to two-letter
language codes. -/
def LANGUAGE_MAP : List (String × String) :=
  [("韩语", "ko"), ("韩", "ko"), ("korean", "ko"), ("ko", "ko"),
   ("日语", "ja"), ("日", "ja"), ("japanese", "ja"), ("ja", "ja"),
   ("中文", "zh"), ("中", "zh"), ("chinese", "zh"), ("zh", "zh"),
   ("英语", "en"), ("英", "en"), ("english", "en"), ("en", "en"),
   ("法语", "fr"), ("法", "fr"), ("french", "fr"), ("fr", "fr"),
   ("西班牙语", "es"), ("spanish", "es"), ("es", "es"),
   ("泰语", "th"), ("泰", "th"), ("thai", "th"), ("th", "th")]

/-- The language resolution step of `_enrich_and_filter_by_lang` (line 55):
`LANGUAGE_MAP.get(lang.lower(), lang.lower())`. -/
def resolveLang (lang : String) : String :=
  match LANGUAGE_MAP.lookup (pyLower lang) with
  | some code => code
  | none => pyLower lang

/-- `item["_original_language"] = l`: stamp an item with its resolved
language, leaving every other key unchanged. -/
def withLang (m : MediaItem) (l : String) : MediaItem :=
  { m with origLang := some l }

/-- Read of the shared item list at an index (the engine's state is the
input items, mutated in place). -/
def itemAt (items : List MediaItem) (j : Nat) : MediaItem :=
  items.getD j default

/-- The `future_to_item` dict comprehension (lines 61-64): one submitted
task per input item, keyed here by the item's index.  Its size is the
number of lookup tasks dispatched to the pool. -/
def future_to_item (items : List MediaItem) : List (Nat × MediaItem) :=
  items.enum

/-- The outcome of one `MPClient.get_media_detail` call as observed by
`_get_language_for_item`: the call raised, returned a falsy detail, or
returned a dict whose `original_language` key may be absent. -/
inductive DetailResult where
  | raised
  | noDetail
  | detail (original_language : Option String)
deriving Repr, DecidableEq

/-- `SubscribeService._get_language_for_item` (lines 31-43).  Returns the
resolved language string together with the list of upstream
`get_media_detail` calls issued (mediaid, type_name).  The `try/except`
of the source makes the function total: every failure maps to `""`. -/
def get_language_for_item (get_media_detail : String → String → DetailResult)
    (item : MediaItem) : String × List (String × String) :=
  let media_type := item.mtype.getD "电视剧"
  match item.tmdbId with
  | none => ("", [])
  | some tid =>
    if tid = 0 then ("", [])
    else
      let mediaid := "tmdb:" ++ toString tid
      match get_media_detail mediaid media_type with
      | .raised => ("", [(mediaid, media_type)])
      | .noDetail => ("", [(mediaid, media_type)])
      | .detail none => ("", [(mediaid, media_type)])
      | .detail (some l) => (l, [(mediaid, media_type)])

/-- The `for future in as_completed(future_to_item)` loop of
`_enrich_and_filter_by_lang` (lines 65-78), as a function of the
completion sequence.  State: the shared item array (`Nat → MediaItem`),
the accumulated `results` list, and a flag recording whether the loop
exited through the `break` after reaching `target_count`. -/
def enrich_loop (lang_code : String) (target_count : Int)
    (fetch : Nat → Option String) :
    List Nat → (Nat → MediaItem) → List MediaItem →
    ((Nat → MediaItem) × List MediaItem × Bool)
  | [], st, res => (st, res, false)
  | i :: rest, st, res =>
    match fetch i with
    | none => enrich_loop lang_code target_count fetch rest st res
    | some item_lang =>
      let st' := Function.update st i (withLang (st i) item_lang)
      if item_lang = lang_code then
        let res' := res ++ [withLang (st i) item_lang]
        if target_count ≤ (res'.length : Int) then (st', res', true)
        else enrich_loop lang_code target_count fetch rest st' res'
      else enrich_loop lang_code target_count fetch rest st' res

/-- `SubscribeService._enrich_and_filter_by_lang` (lines 45-80): resolve
the language once, then consume task completions, returning the filtered
`results` list. -/
def enrich_and_filter_by_lang (items : List MediaItem) (lang : String)
    (target_count : Int) (order : List Nat) (fetch : Nat → Option String) :
    List MediaItem :=
  (enrich_loop (resolveLang lang) target_count fetch order (itemAt items) []).2.1

/-- The final state of the shared item array after
`_enrich_and_filter_by_lang` returns (the in-place mutations seen by the
caller through aliasing). -/
def enrich_final_state (items : List MediaItem) (lang : String)
    (target_count : Int) (order : List Nat) (fetch : Nat → Option String) :
    Nat → MediaItem :=
  (enrich_loop (resolveLang lang) target_count fetch order (itemAt items) []).1

/-- Specification-side description for C1: the completed items (in
completion order) whose fetched language equals `code`, each stamped with
that language. -/
def completionMatches (items : List MediaItem) (code : String)
    (fetch : Nat → Option String) : List Nat → List MediaItem
  | [] => []
  | i :: rest =>
    match fetch i with
    | none => completionMatches items code fetch rest
    | some l =>
      if l = code then
        withLang (itemAt items i) l :: completionMatches items code fetch rest
      else completionMatches items code fetch rest

/-- The reshaped media record produced by `SubscribeService._format_media`
(lines 269-284), restricted to the modelled keys.  `language` is
`item.get("_original_language") or item.get("original_language", "")`. -/
structure FormattedMedia where
  title : String
  type : String
  tmdb_id : Option Int
  language : String
deriving Repr, DecidableEq

/-- `SubscribeService._format_media` on the modelled keys. -/
def format_media (item : MediaItem) : FormattedMedia :=
  { title := item.title
    type := item.mtype.getD ""
    tmdb_id := item.tmdbId
    language := pyOrStr item.origLang item.rawLang }

/-- The optional kwargs (`genre_id`, `min_rating`) that `get_hot_tv` /
`get_hot_movies` forward unchanged to `get_popular_subscribes`. -/
structure HotKwargs where
  genre_id : Option Int
  min_rating : Option ℚ
deriving Repr, DecidableEq

/-- Instrumented run of a hot-listing call: the upstream
`get_popular_subscribes` requests issued (stype, page, count), the number
of enrichment lookup tasks dispatched, and the formatted result. -/
structure HotRun where
  listingCalls : List (String × Int × Int)
  enrichTasks : Nat
  result : List FormattedMedia
deriving Repr, DecidableEq

/-- `SubscribeService.get_hot_tv` (lines 84-110).  `listing` is the
upstream `MPClient.get_popular_subscribes`; `order`/`fetch` parametrise
the enrichment engine's completion nondeterminism as above. -/
def get_hot_tv (listing : String → Int → Int → HotKwargs → List MediaItem)
    (page count : Int) (genre_id : Option Int) (min_rating : Option ℚ)
    (lang : Option String) (order : List Nat) (fetch : Nat → Option String) :
    HotRun :=
  let kwargs : HotKwargs := ⟨genre_id, min_rating⟩
  if pyTruthy lang then
    let fetch_count := count * 5
    let shows := listing "电视剧" page fetch_count kwargs
    let filtered := enrich_and_filter_by_lang shows (lang.getD "") count order fetch
    { listingCalls := [("电视剧", page, fetch_count)]
      enrichTasks := (future_to_item shows).length
      result := filtered.map format_media }
  else
    let shows := listing "电视剧" page count kwargs
    { listingCalls := [("电视剧", page, count)]
      enrichTasks := 0
      result := shows.map format_media }

/-- `SubscribeService.get_hot_movies` (lines 112-137): identical to
`get_hot_tv` with stype `"电影"`. -/
def get_hot_movies (listing : String → Int → Int → HotKwargs → List MediaItem)
    (page count : Int) (genre_id : Option Int) (min_rating : Option ℚ)
    (lang : Option String) (order : List Nat) (fetch : Nat → Option String) :
    HotRun :=
  let kwargs : HotKwargs := ⟨genre_id, min_rating⟩
  if pyTruthy lang then
    let fetch_count := count * 5
    let movies := listing "电影" page fetch_count kwargs
    let filtered := enrich_and_filter_by_lang movies (lang.getD "") count order fetch
    { listingCalls := [("电影", page, fetch_count)]
      enrichTasks := (future_to_item movies).length
      result := filtered.map format_media }
  else
    let movies := listing "电影" page count kwargs
    { listingCalls := [("电影", page, count)]
      enrichTasks := 0
      result := movies.map format_media }

/-- A TMDB detail dict as produced by `TMDBClient.movie_detail` /
`tv_detail` and read by `subscribe_by_tmdbid` (fields via `.get` with
the shown defaults; the two date keys may be absent). -/
structure TmdbDetail where
  title : String
  first_air_date : Option String
  release_date : Option String
  poster : String
  backdrop : String
  rating : Int
  overview : String
deriving Repr, DecidableEq

/-- One MoviePilot search result dict as read by `subscribe_by_tmdbid`'s
fallback and by `subscribe_by_title` (fields via `.get` with defaults). -/
structure SearchResult where
  tmdb_id : Option Int
  title : String
  year : String
  mtype : Option String
  poster_path : String
  backdrop_path : String
  vote_average : Int
  overview : String
deriving Repr, DecidableEq

/-- The `sub_data` dict assembled by `subscribe_by_tmdbid` and submitted
to `MPClient.add_subscribe`.  Keys other than `tmdbid`/`type` are present
only when some lookup filled them. -/
structure SubData where
  tmdbid : Int
  type : String
  name : Option String
  year : Option String
  poster : Option String
  backdrop : Option String
  vote : Option Int
  description : Option String
  season : Option Int
deriving Repr, DecidableEq

/-- Python `d.setdefault(k, v)` on an optional field. -/
def setD (cur : Option α) (v : α) : Option α :=
  match cur with
  | some x => some x
  | none => some v

/-- An upstream MoviePilot call issued by the subscribe workflows, for
call-count reasoning: a TMDB detail lookup, a backend search, or the
final `add_subscribe` submission. -/
inductive MPCall where
  | detailCall (movie : Bool) (tmdbid : Int)
  | searchCall (key : String)
  | addSubscribe (data : SubData)
deriving Repr, DecidableEq

/-- The `add_subscribe` submissions contained in a call trace. -/
def addSubmissions (calls : List MPCall) : List SubData :=
  calls.filterMap fun c =>
    match c with
    | .addSubscribe d => some d
    | _ => none

/-- `SubscribeService.subscribe_by_tmdbid` (lines 146-198).
`movie_detail`/`tv_detail` model `TMDBClient.movie_detail`/`tv_detail`
(`Except.error` = the call raised; `Except.ok none` = falsy detail);
`search_media` models `MPClient.search_media`.  Returns the submitted
`sub_data` together with the trace of upstream calls; the final
`add_subscribe` relay is the last trace entry carrying the returned
record. -/
def subscribe_by_tmdbid
    (movie_detail tv_detail : Int → Except Unit (Option TmdbDetail))
    (search_media : String → Except Unit (List SearchResult))
    (tmdbid : Int) (media_type : String) (season : Option Int) :
    SubData × List MPCall :=
  let base : SubData :=
    { tmdbid := tmdbid, type := media_type, name := none, year := none,
      poster := none, backdrop := none, vote := none, description := none,
      season := none }
  let isMovie := media_type = "电影"
  let dCall := MPCall.detailCall (decide isMovie) tmdbid
  let ec : SubData × List MPCall :=
    match (if isMovie then movie_detail tmdbid else tv_detail tmdbid) with
    | .ok (some d) =>
      let date_str := pyOrStr d.first_air_date (pyOrStr d.release_date "")
      ({ base with
          name := some d.title
          year := some (if date_str = "" then "" else date_str.take 4)
          poster := some d.poster
          backdrop := some d.backdrop
          vote := some d.rating
          description := some d.overview }, [dCall])
    | .ok none => (base, [dCall])
    | .error _ =>
      let key := base.name.getD (toString tmdbid)
      match search_media key with
      | .error _ => (base, [dCall, .searchCall key])
      | .ok results =>
        match results.find? (fun r => r.tmdb_id == some tmdbid) with
        | none => (base, [dCall, .searchCall key])
        | some r =>
          ({ base with
              name := setD base.name r.title
              year := setD base.year r.year
              poster := setD base.poster r.poster_path
              backdrop := setD base.backdrop r.backdrop_path
              vote := setD base.vote r.vote_average
              description := setD base.description r.overview },
           [dCall, .searchCall key])
  let final :=
    match season with
    | some s => if media_type = "电视剧" then { ec.1 with season := some s } else ec.1
    | none => ec.1
  (final, ec.2 ++ [.addSubscribe final])

/-- The outcome of `subscribe_by_title`: either the structured
`{"success": False, "message": ...}` dict, or the relayed result of the
`add_subscribe` submission performed by `subscribe_by_tmdbid`. -/
inductive SubscribeOutcome where
  | failure (message : String)
  | submitted (data : SubData)
deriving Repr, DecidableEq

/-- `SubscribeService.subscribe_by_title` (lines 200-219).  The top-level
`search_media` call is outside any `try`, so its exception propagates
(`Except.error`).  Returns the outcome with the trace of upstream calls. -/
def subscribe_by_title
    (movie_detail tv_detail : Int → Except Unit (Option TmdbDetail))
    (search_media : String → Except Unit (List SearchResult))
    (title : String) (media_type : Option String) (season : Option Int) :
    Except Unit (SubscribeOutcome × List MPCall) :=
  match search_media title with
  | .error e => .error e
  | .ok results =>
    match results with
    | [] => .ok (.failure ("未找到: " ++ title), [.searchCall title])
    | media :: _ =>
      match media.tmdb_id with
      | none => .ok (.failure ("无法获取 TMDB ID: " ++ title), [.searchCall title])
      | some tid =>
        if tid = 0 then
          .ok (.failure ("无法获取 TMDB ID: " ++ title), [.searchCall title])
        else
          let mtype := pyOrStr media_type (media.mtype.getD "电视剧")
          let run :=
            subscribe_by_tmdbid movie_detail tv_detail search_media tid mtype season
          .ok (.submitted run.1, .searchCall title :: run.2)

/-- The bare record submitted when no metadata could be resolved: only
`tmdbid` and `type` (plus `season` for a series) are populated. -/
def bareSubData (tmdbid : Int) (media_type : String) (season : Option Int) :
    SubData :=
  { tmdbid := tmdbid, type := media_type, name := none, year := none,
    poster := none, backdrop := none, vote := none, description := none,
    season := match season with
      | some s => if media_type = "电视剧" then some s else none
      | none => none }

/-- Sample item used in concrete counterexamples and witnesses. -/
def itmA : MediaItem :=
  { tmdbId := some 1, mtype := some "电视剧", title := "A", rawLang := "ko",
    origLang := none }

/-- Second sample item. -/
def itmB : MediaItem :=
  { tmdbId := some 2, mtype := some "电视剧", title := "B", rawLang := "en",
    origLang := none }

/-- A completion outcome assignment where every task resolves to "ko". -/
def fetchKo : Nat → Option String := fun _ => some "ko"

/-- A completion outcome assignment: task 0 resolves "ko", task 1 "en",
everything else raises. -/
def fetchMix : Nat → Option String := fun i =>
  if i = 0 then some "ko" else if i = 1 then some "en" else none

/-- Sample item lacking a tmdb id. -/
def itmNoId : MediaItem :=
  { tmdbId := none, mtype := some "电视剧", title := "N", rawLang := "",
    origLang := none }

/-- A detail backend whose every call raises. -/
def gmdRaise : String → String → DetailResult := fun _ _ => .raised

/-- An upstream listing returning no items, for witnesses. -/
def L0 : String → Int → Int → HotKwargs → List MediaItem := fun _ _ _ _ => []

/-- A TMDB detail client whose every call raises, for witnesses. -/
def tmdbRaise : Int → Except Unit (Option TmdbDetail) := fun _ => .error ()

/-- A backend search whose every call raises, for witnesses. -/
def searchRaise : String → Except Unit (List SearchResult) := fun _ => .error ()

/-- A backend search returning no results, for witnesses. -/
def searchEmpty : String → Except Unit (List SearchResult) := fun _ => .ok []

/-- A search result lacking a tmdb id, for witnesses. -/
def rNoId : SearchResult :=
  { tmdb_id := none, title := "X", year := "2020", mtype := some "电视剧",
    poster_path := "", backdrop_path := "", vote_average := 0, overview := "" }

/-- A search result carrying tmdb id 7, for witnesses. -/
def rHit : SearchResult :=
  { tmdb_id := some 7, title := "Y", year := "2021", mtype := some "电视剧",
    poster_path := "p", backdrop_path := "b", vote_average := 8, overview := "o" }

/-- A backend search whose top result lacks a tmdb id, for witnesses. -/
def searchNoId : String → Except Unit (List SearchResult) := fun _ => .ok [rNoId]

/-- A backend search whose top result is `rHit`, for witnesses. -/
def searchHit : String → Except Unit (List SearchResult) := fun _ => .ok [rHit]

/-! ## Helper lemmas about the enrichment loop -/

/-- Re-stamping an already stamped item equals stamping the original. -/
theorem withLang_restamp (m : MediaItem) (ol : Option String) (l : String) :
    withLang { m with origLang := ol } l = withLang m l := rfl

/-- The loop's `results` never exceeds `max target_count.toNat (res.length + 1)`
entries: each append is immediately followed by the `break` check. -/
theorem enrich_loop_length_le (code : String) (tc : Int)
    (fetch : Nat → Option String) (order : List Nat) :
    ∀ (st : Nat → MediaItem) (res : List MediaItem),
      (enrich_loop code tc fetch order st res).2.1.length ≤
        max tc.toNat (res.length + 1) := by
  induction order with
  | nil => intro st res; simp [enrich_loop]
  | cons i rest ih =>
    intro st res
    cases h : fetch i with
    | none =>
      simp only [enrich_loop, h]
      have := ih st res
      omega
    | some l =>
      by_cases hl : l = code
      · by_cases hb : tc ≤ ((res ++ [withLang (st i) l]).length : Int)
        · simp only [enrich_loop, h, if_pos hl, if_pos hb]
          simp
        · simp only [enrich_loop, h, if_pos hl, if_neg hb]
          have := ih (Function.update st i (withLang (st i) l))
            (res ++ [withLang (st i) l])
          simp at this hb
          omega
      · simp only [enrich_loop, h, if_neg hl]
        have := ih (Function.update st i (withLang (st i) l)) res
        omega

/-- Core correctness of the consumption loop: starting below the target,
the final `results` are the accumulated ones followed by the matching
completions, truncated to the remaining budget.  The state hypothesis
says every slot holds its original item up to the language stamp. -/
theorem enrich_loop_results (items : List MediaItem) (code : String) (tc : Int)
    (fetch : Nat → Option String) (order : List Nat) :
    ∀ (st : Nat → MediaItem) (res : List MediaItem),
      (∀ j, ∃ ol, st j = { itemAt items j with origLang := ol }) →
      ((res.length : Int) < tc) →
      (enrich_loop code tc fetch order st res).2.1 =
        res ++ (completionMatches items code fetch order).take (tc - res.length).toNat := by
  induction order with
  | nil => intro st res hinv hlt; simp [enrich_loop, completionMatches]
  | cons i rest ih =>
    intro st res hinv hlt
    have hstamp : withLang (st i) = withLang (itemAt items i) := by
      obtain ⟨ol, hol⟩ := hinv i
      funext l
      rw [hol, withLang_restamp]
    have hinv' : ∀ l j, ∃ ol,
        Function.update st i (withLang (st i) l) j =
          { itemAt items j with origLang := ol } := by
      intro l j
      by_cases hj : j = i
      · subst hj
        obtain ⟨ol, hol⟩ := hinv j
        exact ⟨some l, by rw [Function.update_same, hol]; rfl⟩
      · rw [Function.update_noteq hj]
        exact hinv j
    cases h : fetch i with
    | none =>
      simp only [enrich_loop, h, completionMatches]
      exact ih st res hinv hlt
    | some l =>
      by_cases hl : l = code
      · by_cases hb : tc ≤ ((res ++ [withLang (st i) l]).length : Int)
        · simp only [enrich_loop, h, if_pos hl, if_pos hb, completionMatches]
          simp only [List.length_append, List.length_singleton] at hb
          have h1 : (tc - res.length).toNat = 1 := by omega
          rw [h1, List.take_succ_cons, List.take_zero, hstamp]
        · simp only [enrich_loop, h, if_pos hl, if_neg hb, completionMatches]
          simp only [List.length_append, List.length_singleton] at hb
          have hlt' : (((res ++ [withLang (st i) l]).length : Nat) : Int) < tc := by
            simp; omega
          rw [ih _ _ (hinv' l) hlt']
          have h2 : (tc - res.length).toNat =
              (tc - ((res ++ [withLang (st i) l]).length : Nat)).toNat + 1 := by
            simp; omega
          rw [h2, List.take_succ_cons, hstamp]
          simp
      · simp only [enrich_loop, h, if_neg hl, completionMatches]
        rw [ih _ _ (hinv' l) hlt]

/-- Splitting the completion sequence: once the loop breaks on the first
part, the second part is never consumed; otherwise consumption continues
from the reached state. -/
theorem enrich_loop_append (code : String) (tc : Int)
    (fetch : Nat → Option String) (o₁ : List Nat) :
    ∀ (o₂ : List Nat) (st : Nat → MediaItem) (res : List MediaItem),
      enrich_loop code tc fetch (o₁ ++ o₂) st res =
        if (enrich_loop code tc fetch o₁ st res).2.2 then
          enrich_loop code tc fetch o₁ st res
        else
          enrich_loop code tc fetch o₂ (enrich_loop code tc fetch o₁ st res).1
            (enrich_loop code tc fetch o₁ st res).2.1 := by
  induction o₁ with
  | nil => intro o₂ st res; simp [enrich_loop]
  | cons i rest ih =>
    intro o₂ st res
    cases h : fetch i with
    | none =>
      simp only [List.cons_append, enrich_loop, h]
      exact ih o₂ st res
    | some l =>
      by_cases hl : l = code
      · by_cases hb : tc ≤ ((res ++ [withLang (st i) l]).length : Int)
        · simp only [List.cons_append, enrich_loop, h, if_pos hl, if_pos hb]
          simp
        · simp only [List.cons_append, enrich_loop, h, if_pos hl, if_neg hb]
          exact ih o₂ _ _
      · simp only [List.cons_append, enrich_loop, h, if_neg hl]
        exact ih o₂ _ _

/-- If the loop exits without breaking and started below the target, the
final `results` is still below the target. -/
theorem enrich_loop_not_broke (code : String) (tc : Int)
    (fetch : Nat → Option String) (order : List Nat) :
    ∀ (st : Nat → MediaItem) (res : List MediaItem),
      ((res.length : Int) < tc) →
      (enrich_loop code tc fetch order st res).2.2 = false →
      (((enrich_loop code tc fetch order st res).2.1.length : Int) < tc) := by
  induction order with
  | nil => intro st res hlt _; simpa [enrich_loop] using hlt
  | cons i rest ih =>
    intro st res hlt hflag
    cases h : fetch i with
    | none =>
      simp only [enrich_loop, h] at hflag ⊢
      exact ih st res hlt hflag
    | some l =>
      by_cases hl : l = code
      · by_cases hb : tc ≤ ((res ++ [withLang (st i) l]).length : Int)
        · simp only [enrich_loop, h, if_pos hl, if_pos hb] at hflag
          exact absurd hflag (by simp)
        · simp only [enrich_loop, h, if_pos hl, if_neg hb] at hflag ⊢
          refine ih _ _ ?_ hflag
          simp only [List.length_append, List.length_singleton] at hb ⊢
          omega
      · simp only [enrich_loop, h, if_neg hl] at hflag ⊢
        exact ih _ _ hlt hflag

/-- Frame property of the loop's in-place mutation: every slot keeps all
its fields except possibly `origLang`, and a changed `origLang` holds a
value fetched by that slot's own task. -/
theorem enrich_loop_frame (code : String) (tc : Int)
    (fetch : Nat → Option String) (order : List Nat) :
    ∀ (st : Nat → MediaItem) (res : List MediaItem) (j : Nat),
      ((enrich_loop code tc fetch order st res).1 j).tmdbId = (st j).tmdbId ∧
      ((enrich_loop code tc fetch order st res).1 j).mtype = (st j).mtype ∧
      ((enrich_loop code tc fetch order st res).1 j).title = (st j).title ∧
      ((enrich_loop code tc fetch order st res).1 j).rawLang = (st j).rawLang ∧
      (((enrich_loop code tc fetch order st res).1 j).origLang = (st j).origLang ∨
        ∃ l, fetch j = some l ∧
          ((enrich_loop code tc fetch order st res).1 j).origLang = some l) := by
  induction order with
  | nil => intro st res j; simp [enrich_loop]
  | cons i rest ih =>
    intro st res j
    have hupd : ∀ l, fetch i = some l →
        (Function.update st i (withLang (st i) l) j).tmdbId = (st j).tmdbId ∧
        (Function.update st i (withLang (st i) l) j).mtype = (st j).mtype ∧
        (Function.update st i (withLang (st i) l) j).title = (st j).title ∧
        (Function.update st i (withLang (st i) l) j).rawLang = (st j).rawLang ∧
        ((Function.update st i (withLang (st i) l) j).origLang = (st j).origLang ∨
          ∃ l', fetch j = some l' ∧
            (Function.update st i (withLang (st i) l) j).origLang = some l') := by
      intro l hfi
      by_cases hj : j = i
      · subst hj
        rw [Function.update_same]
        exact ⟨rfl, rfl, rfl, rfl, Or.inr ⟨l, hfi, rfl⟩⟩
      · rw [Function.update_noteq hj]
        exact ⟨rfl, rfl, rfl, rfl, Or.inl rfl⟩
    cases h : fetch i with
    | none =>
      simp only [enrich_loop, h]
      exact ih st res j
    | some l =>
      have hu := hupd l h
      by_cases hl : l = code
      · by_cases hb : tc ≤ ((res ++ [withLang (st i) l]).length : Int)
        · simp only [enrich_loop, h, if_pos hl, if_pos hb]
          exact hu
        · simp only [enrich_loop, h, if_pos hl, if_neg hb]
          obtain ⟨h1, h2, h3, h4, h5⟩ := ih (Function.update st i (withLang (st i) l))
            (res ++ [withLang (st i) l]) j
          refine ⟨h1.trans hu.1, h2.trans hu.2.1, h3.trans hu.2.2.1,
            h4.trans hu.2.2.2.1, ?_⟩
          rcases h5 with h5 | h5
          · rcases hu.2.2.2.2 with h6 | h6
            · exact Or.inl (h5.trans h6)
            · exact Or.inr ⟨h6.choose, h6.choose_spec.1, h5.trans h6.choose_spec.2⟩
          · exact Or.inr h5
      · simp only [enrich_loop, h, if_neg hl]
        obtain ⟨h1, h2, h3, h4, h5⟩ := ih (Function.update st i (withLang (st i) l)) res j
        refine ⟨h1.trans hu.1, h2.trans hu.2.1, h3.trans hu.2.2.1,
          h4.trans hu.2.2.2.1, ?_⟩
        rcases h5 with h5 | h5
        · rcases hu.2.2.2.2 with h6 | h6
          · exact Or.inl (h5.trans h6)
          · exact Or.inr ⟨h6.choose, h6.choose_spec.1, h5.trans h6.choose_spec.2⟩
        · exact Or.inr h5

/-! ## Claim theorems -/

/-- C1: for every input list, language query and positive targetCount,
modelling the engine as a function of the completion sequence, the result
of `_enrich_and_filter_by_lang` is exactly the completed items whose
fetched language equals the resolved target code, in completion order,
truncated to the first targetCount matches, each stamped with its
resolved language before the match test. -/
theorem C1_filter_is_completion_order_matches
    (items : List MediaItem) (lang : String) (target_count : Int)
    (order : List Nat) (fetch : Nat → Option String)
    (hpos : 0 < target_count) :
    enrich_and_filter_by_lang items lang target_count order fetch =
      (completionMatches items (resolveLang lang) fetch order).take
        target_count.toNat := by
  have h := enrich_loop_results items (resolveLang lang) target_count fetch order
    (itemAt items) [] (fun j => ⟨(itemAt items j).origLang, rfl⟩)
    (by simpa using hpos)
  simpa [enrich_and_filter_by_lang] using h

/-- Witness for C1 at a concrete run: two items whose lookups complete in
reverse input order with target 1. -/
theorem C1_filter_is_completion_order_matches_witness :
    (0 : Int) < 1 ∧
    enrich_and_filter_by_lang [itmA, itmB] "ko" 1 [1, 0] fetchMix =
      (completionMatches [itmA, itmB] (resolveLang "ko") fetchMix [1, 0]).take
        (1 : Int).toNat :=
  ⟨by decide,
   C1_filter_is_completion_order_matches [itmA, itmB] "ko" 1 [1, 0] fetchMix
     (by decide)⟩

/-- C2 as stated is false: with targetCount 0 and a matching completion
the engine returns one item, because the `len(results) >= target_count`
check runs only after an append. -/
theorem C2_counterexample :
    ¬ ((enrich_and_filter_by_lang [itmA] "ko" 0 [0] fetchKo).length : Int) ≤ 0 := by
  decide

/-- C2 amended: the result length is at most `max targetCount 1` — at most
targetCount for positive targetCount, but up to one item when
targetCount ≤ 0. -/
theorem C2_length_bound (items : List MediaItem) (lang : String)
    (target_count : Int) (order : List Nat) (fetch : Nat → Option String) :
    (enrich_and_filter_by_lang items lang target_count order fetch).length ≤
      max target_count.toNat 1 := by
  have h := enrich_loop_length_le (resolveLang lang) target_count fetch order
    (itemAt items) []
  simpa [enrich_and_filter_by_lang] using h

/-- C3 as stated is false: with targetCount 0 the engine still dispatches
one lookup task per input item (the `future_to_item` comprehension runs
before the consumption loop) and can return a non-empty result. -/
theorem C3_counterexample :
    future_to_item [itmA] ≠ [] ∧
    enrich_and_filter_by_lang [itmA] "ko" 0 [0] fetchKo ≠ [] := by
  decide

/-- C3 amended: an empty input batch yields an empty result with no tasks
dispatched, but targetCount ≤ 0 still dispatches one task per item and
returns at most one (matching) item rather than none. -/
theorem C3_empty_and_nonpositive_target
    (items : List MediaItem) (lang : String) (target_count : Int)
    (order : List Nat) (fetch : Nat → Option String) :
    (items = [] → (∀ i ∈ order, i < items.length) →
      future_to_item items = [] ∧
      enrich_and_filter_by_lang items lang target_count order fetch = []) ∧
    (target_count ≤ 0 →
      (future_to_item items).length = items.length ∧
      (enrich_and_filter_by_lang items lang target_count order fetch).length ≤ 1) := by
  constructor
  · rintro rfl hord
    have hord' : order = [] := by
      cases order with
      | nil => rfl
      | cons i rest => exact absurd (hord i (by simp)) (by simp)
    subst hord'
    exact ⟨rfl, rfl⟩
  · intro hle
    refine ⟨by simp [future_to_item], ?_⟩
    have h := enrich_loop_length_le (resolveLang lang) target_count fetch order
      (itemAt items) []
    simp only [List.length_nil] at h
    simp only [enrich_and_filter_by_lang]
    omega

/-- Witness for C3's amended statement at concrete inputs. -/
theorem C3_empty_and_nonpositive_target_witness :
    (future_to_item ([] : List MediaItem) = [] ∧
      enrich_and_filter_by_lang [] "ko" 3 [] fetchKo = []) ∧
    ((future_to_item [itmA]).length = 1 ∧
      (enrich_and_filter_by_lang [itmA] "ko" 0 [0] fetchKo).length ≤ 1) :=
  ⟨(C3_empty_and_nonpositive_target [] "ko" 3 [] fetchKo).1 rfl (by simp),
   (C3_empty_and_nonpositive_target [itmA] "ko" 0 [0] fetchKo).2 (by decide)⟩

/-- C4: once the result has reached a positive targetCount, completions
arriving later are never consumed: extending the completion sequence
changes neither the result sequence nor the final item states. -/
theorem C4_no_consumption_after_target
    (items : List MediaItem) (lang : String) (target_count : Int)
    (order extra : List Nat) (fetch : Nat → Option String)
    (hpos : 0 < target_count)
    (hreach : target_count ≤
      ((enrich_and_filter_by_lang items lang target_count order fetch).length : Int)) :
    enrich_and_filter_by_lang items lang target_count (order ++ extra) fetch =
      enrich_and_filter_by_lang items lang target_count order fetch ∧
    enrich_final_state items lang target_count (order ++ extra) fetch =
      enrich_final_state items lang target_count order fetch := by
  have hb : (enrich_loop (resolveLang lang) target_count fetch order
      (itemAt items) []).2.2 = true := by
    by_contra hfalse
    rw [Bool.not_eq_true] at hfalse
    have h := enrich_loop_not_broke (resolveLang lang) target_count fetch order
      (itemAt items) [] (by simpa using hpos) hfalse
    simp only [enrich_and_filter_by_lang] at hreach
    omega
  have happ := enrich_loop_append (resolveLang lang) target_count fetch order extra
    (itemAt items) []
  constructor <;>
    simp [enrich_and_filter_by_lang, enrich_final_state, happ, hb]

/-- Witness for C4 at a concrete run: the target is reached on the first
completion and a later completion is ignored. -/
theorem C4_no_consumption_after_target_witness :
    (0 : Int) < 1 ∧
    (1 : Int) ≤ ((enrich_and_filter_by_lang [itmA, itmB] "ko" 1 [0] fetchMix).length : Int) ∧
    (enrich_and_filter_by_lang [itmA, itmB] "ko" 1 ([0] ++ [1]) fetchMix =
        enrich_and_filter_by_lang [itmA, itmB] "ko" 1 [0] fetchMix ∧
      enrich_final_state [itmA, itmB] "ko" 1 ([0] ++ [1]) fetchMix =
        enrich_final_state [itmA, itmB] "ko" 1 [0] fetchMix) :=
  ⟨by decide, by decide,
   C4_no_consumption_after_target [itmA, itmB] "ko" 1 [0] [1] fetchMix
     (by decide) (by decide)⟩

/-- C5: the language resolver returns the synonym table's code for any
token whose lowercasing is a table key (hence is case-insensitive), and
returns the lowercased token itself otherwise, never failing. -/
theorem C5_resolver (t₁ t₂ code : String) :
    (LANGUAGE_MAP.lookup (pyLower t₁) = some code → resolveLang t₁ = code) ∧
    (LANGUAGE_MAP.lookup (pyLower t₁) = none → resolveLang t₁ = pyLower t₁) ∧
    (pyLower t₁ = pyLower t₂ → resolveLang t₁ = resolveLang t₂) := by
  refine ⟨fun h => ?_, fun h => ?_, fun h => ?_⟩ <;> simp [resolveLang, h]

/-- Witness for C5: a recognized synonym in mixed case, an unrecognized
token, and case-insensitivity on a table key. -/
theorem C5_resolver_witness :
    LANGUAGE_MAP.lookup (pyLower "Korean") = some "ko" ∧
    resolveLang "Korean" = "ko" ∧
    LANGUAGE_MAP.lookup (pyLower "klingon") = none ∧
    resolveLang "klingon" = pyLower "klingon" ∧
    pyLower "KOREAN" = pyLower "korean" ∧
    resolveLang "KOREAN" = resolveLang "korean" :=
  ⟨by decide, (C5_resolver "Korean" "Korean" "ko").1 (by decide),
   by decide, (C5_resolver "klingon" "klingon" "x").2.1 (by decide),
   by decide, (C5_resolver "KOREAN" "korean" "x").2.2 (by decide)⟩

/-- C10: the engine's in-place mutation is confined to each item's own
`_original_language` slot: every other field of every slot is unchanged,
and a slot's stamp, when changed, is a value fetched by that slot's own
task. -/
theorem C10_mutation_confined
    (items : List MediaItem) (lang : String) (target_count : Int)
    (order : List Nat) (fetch : Nat → Option String) (j : Nat) :
    (enrich_final_state items lang target_count order fetch j).tmdbId =
      (itemAt items j).tmdbId ∧
    (enrich_final_state items lang target_count order fetch j).mtype =
      (itemAt items j).mtype ∧
    (enrich_final_state items lang target_count order fetch j).title =
      (itemAt items j).title ∧
    (enrich_final_state items lang target_count order fetch j).rawLang =
      (itemAt items j).rawLang ∧
    ((enrich_final_state items lang target_count order fetch j).origLang =
        (itemAt items j).origLang ∨
      ∃ l, fetch j = some l ∧
        (enrich_final_state items lang target_count order fetch j).origLang = some l) := by
  have h := enrich_loop_frame (resolveLang lang) target_count fetch order
    (itemAt items) [] j
  simpa [enrich_final_state] using h

/-- C6: the detail fetcher `_get_language_for_item` is total (never raises
to the caller), returns `""` immediately with no upstream call when the
item's tmdb id is absent (Python-falsy), and returns `""` whenever the
upstream detail call raises, returns a falsy detail, or returns a detail
lacking the `original_language` field. -/
theorem C6_fetcher_soft_fail (gmd : String → String → DetailResult)
    (item : MediaItem) :
    ((item.tmdbId = none ∨ item.tmdbId = some 0) →
      get_language_for_item gmd item = ("", [])) ∧
    (∀ tid r, item.tmdbId = some tid → tid ≠ 0 →
      gmd ("tmdb:" ++ toString tid) (item.mtype.getD "电视剧") = r →
      (r = DetailResult.raised ∨ r = DetailResult.noDetail ∨
        r = DetailResult.detail none) →
      (get_language_for_item gmd item).1 = "") := by
  constructor
  · rintro (h | h) <;> simp [get_language_for_item, h]
  · rintro tid r htid hne rfl hr
    rcases hr with h | h | h <;>
      simp [get_language_for_item, htid, hne, h]

/-- Witness for C6: an item without tmdb id, and an item whose upstream
detail call raises. -/
theorem C6_fetcher_soft_fail_witness :
    itmNoId.tmdbId = none ∧
    get_language_for_item gmdRaise itmNoId = ("", []) ∧
    itmA.tmdbId = some 1 ∧ (1 : Int) ≠ 0 ∧
    gmdRaise ("tmdb:" ++ toString (1 : Int)) (itmA.mtype.getD "电视剧") =
      DetailResult.raised ∧
    (get_language_for_item gmdRaise itmA).1 = "" :=
  ⟨rfl, (C6_fetcher_soft_fail gmdRaise itmNoId).1 (Or.inl rfl),
   rfl, by decide, rfl,
   (C6_fetcher_soft_fail gmdRaise itmA).2 1 DetailResult.raised rfl (by decide)
     rfl (Or.inl rfl)⟩

/-- C7: without a language query the hot listings request exactly `count`
items and perform no enrichment; with one they request `count * 5` items
in a single upstream call and delegate to the engine with
targetCount = count. -/
theorem C7_hot_listing
    (listing : String → Int → Int → HotKwargs → List MediaItem)
    (page count : Int) (genre_id : Option Int) (min_rating : Option ℚ)
    (lang : Option String) (order : List Nat) (fetch : Nat → Option String) :
    (pyTruthy lang = false →
      get_hot_tv listing page count genre_id min_rating lang order fetch =
        { listingCalls := [("电视剧", page, count)]
          enrichTasks := 0
          result := (listing "电视剧" page count ⟨genre_id, min_rating⟩).map
            format_media } ∧
      get_hot_movies listing page count genre_id min_rating lang order fetch =
        { listingCalls := [("电影", page, count)]
          enrichTasks := 0
          result := (listing "电影" page count ⟨genre_id, min_rating⟩).map
            format_media }) ∧
    (pyTruthy lang = true →
      get_hot_tv listing page count genre_id min_rating lang order fetch =
        { listingCalls := [("电视剧", page, count * 5)]
          enrichTasks := (future_to_item
            (listing "电视剧" page (count * 5) ⟨genre_id, min_rating⟩)).length
          result := (enrich_and_filter_by_lang
            (listing "电视剧" page (count * 5) ⟨genre_id, min_rating⟩)
            (lang.getD "") count order fetch).map format_media } ∧
      get_hot_movies listing page count genre_id min_rating lang order fetch =
        { listingCalls := [("电影", page, count * 5)]
          enrichTasks := (future_to_item
            (listing "电影" page (count * 5) ⟨genre_id, min_rating⟩)).length
          result := (enrich_and_filter_by_lang
            (listing "电影" page (count * 5) ⟨genre_id, min_rating⟩)
            (lang.getD "") count order fetch).map format_media }) := by
  constructor <;> intro h <;>
    exact ⟨by simp [get_hot_tv, h], by simp [get_hot_movies, h]⟩

/-- Witness for C7: a run without and a run with a language query. -/
theorem C7_hot_listing_witness :
    pyTruthy (none : Option String) = false ∧
    (get_hot_tv L0 1 4 none none none [] fetchKo =
      { listingCalls := [("电视剧", 1, 4)]
        enrichTasks := 0
        result := (L0 "电视剧" 1 4 ⟨none, none⟩).map format_media } ∧
     get_hot_movies L0 1 4 none none none [] fetchKo =
      { listingCalls := [("电影", 1, 4)]
        enrichTasks := 0
        result := (L0 "电影" 1 4 ⟨none, none⟩).map format_media }) ∧
    pyTruthy (some "ko") = true ∧
    (get_hot_tv L0 1 4 none none (some "ko") [] fetchKo =
      { listingCalls := [("电视剧", 1, 4 * 5)]
        enrichTasks := (future_to_item (L0 "电视剧" 1 (4 * 5) ⟨none, none⟩)).length
        result := (enrich_and_filter_by_lang (L0 "电视剧" 1 (4 * 5) ⟨none, none⟩)
          ((some "ko").getD "") 4 [] fetchKo).map format_media } ∧
     get_hot_movies L0 1 4 none none (some "ko") [] fetchKo =
      { listingCalls := [("电影", 1, 4 * 5)]
        enrichTasks := (future_to_item (L0 "电影" 1 (4 * 5) ⟨none, none⟩)).length
        result := (enrich_and_filter_by_lang (L0 "电影" 1 (4 * 5) ⟨none, none⟩)
          ((some "ko").getD "") 4 [] fetchKo).map format_media }) :=
  ⟨rfl, (C7_hot_listing L0 1 4 none none none [] fetchKo).1 rfl,
   by decide, (C7_hot_listing L0 1 4 none none (some "ko") [] fetchKo).2 (by decide)⟩

/-- C8: `subscribe_by_title` reports a structured not-found outcome naming
the query (and submits nothing upstream) when the search returns no
results, likewise reports a structured outcome without submitting when
the top result lacks a tmdb id, and otherwise delegates to
`subscribe_by_tmdbid` using the top result's kind when the caller gave
none. -/
theorem C8_subscribe_by_title_outcomes
    (movie_detail tv_detail : Int → Except Unit (Option TmdbDetail))
    (search_media : String → Except Unit (List SearchResult))
    (title : String) (media_type : Option String) (season : Option Int) :
    (search_media title = .ok [] →
      subscribe_by_title movie_detail tv_detail search_media title media_type season =
        .ok (.failure ("未找到: " ++ title), [.searchCall title]) ∧
      addSubmissions [MPCall.searchCall title] = []) ∧
    (∀ m rest, search_media title = .ok (m :: rest) →
      (m.tmdb_id = none ∨ m.tmdb_id = some 0) →
      subscribe_by_title movie_detail tv_detail search_media title media_type season =
        .ok (.failure ("无法获取 TMDB ID: " ++ title), [.searchCall title])) ∧
    (∀ m rest tid, search_media title = .ok (m :: rest) → m.tmdb_id = some tid →
      tid ≠ 0 → media_type = none →
      subscribe_by_title movie_detail tv_detail search_media title media_type season =
        .ok (.submitted (subscribe_by_tmdbid movie_detail tv_detail search_media tid
            (m.mtype.getD "电视剧") season).1,
          .searchCall title :: (subscribe_by_tmdbid movie_detail tv_detail search_media tid
            (m.mtype.getD "电视剧") season).2)) := by
  refine ⟨fun h => ?_, fun m rest h hid => ?_, fun m rest tid h hid hne hmt => ?_⟩
  · exact ⟨by simp [subscribe_by_title, h], rfl⟩
  · rcases hid with hid | hid <;> simp [subscribe_by_title, h, hid]
  · subst hmt
    simp [subscribe_by_title, h, hid, hne, pyOrStr]

/-- Witness for C8: an empty search, a top result without tmdb id, and a
successful delegation. -/
theorem C8_subscribe_by_title_outcomes_witness :
    searchEmpty "NoSuchShow123" = .ok [] ∧
    (subscribe_by_title tmdbRaise tmdbRaise searchEmpty "NoSuchShow123" none none =
        .ok (.failure ("未找到: " ++ "NoSuchShow123"), [.searchCall "NoSuchShow123"]) ∧
      addSubmissions [MPCall.searchCall "NoSuchShow123"] = []) ∧
    searchNoId "T" = .ok (rNoId :: []) ∧ rNoId.tmdb_id = none ∧
    subscribe_by_title tmdbRaise tmdbRaise searchNoId "T" none none =
      .ok (.failure ("无法获取 TMDB ID: " ++ "T"), [.searchCall "T"]) ∧
    searchHit "Y" = .ok (rHit :: []) ∧ rHit.tmdb_id = some 7 ∧
    subscribe_by_title tmdbRaise tmdbRaise searchHit "Y" none none =
      .ok (.submitted (subscribe_by_tmdbid tmdbRaise tmdbRaise searchHit 7
          (rHit.mtype.getD "电视剧") none).1,
        .searchCall "Y" :: (subscribe_by_tmdbid tmdbRaise tmdbRaise searchHit 7
          (rHit.mtype.getD "电视剧") none).2) :=
  ⟨rfl,
   (C8_subscribe_by_title_outcomes tmdbRaise tmdbRaise searchEmpty "NoSuchShow123"
     none none).1 rfl,
   rfl, rfl,
   (C8_subscribe_by_title_outcomes tmdbRaise tmdbRaise searchNoId "T" none none).2.1
     rNoId [] rfl (Or.inl rfl),
   rfl, rfl,
   (C8_subscribe_by_title_outcomes tmdbRaise tmdbRaise searchHit "Y" none none).2.2
     rHit [] 7 rfl rfl (by decide) rfl⟩

/-- C9: `subscribe_by_tmdbid` performs the `add_subscribe` submission
exactly once on every path (the single submission is the returned
record); when the TMDB detail call raises it falls back to a backend
search keyed by the known name or the raw id string, fills fields only
from the first result whose tmdb id matches, and when the fallback also
fails or finds no match it still submits a record carrying only `tmdbid`
and `type` (plus `season` for a series). -/
theorem C9_subscribe_by_tmdbid_fallback
    (movie_detail tv_detail : Int → Except Unit (Option TmdbDetail))
    (search_media : String → Except Unit (List SearchResult))
    (tid : Int) (mt : String) (season : Option Int) :
    addSubmissions
        (subscribe_by_tmdbid movie_detail tv_detail search_media tid mt season).2 =
      [(subscribe_by_tmdbid movie_detail tv_detail search_media tid mt season).1] ∧
    ((if mt = "电影" then movie_detail tid else tv_detail tid) = .error () →
      MPCall.searchCall (toString tid) ∈
        (subscribe_by_tmdbid movie_detail tv_detail search_media tid mt season).2 ∧
      (search_media (toString tid) = .error () →
        (subscribe_by_tmdbid movie_detail tv_detail search_media tid mt season).1 =
          bareSubData tid mt season) ∧
      (∀ rs, search_media (toString tid) = .ok rs →
        rs.find? (fun r => r.tmdb_id == some tid) = none →
        (subscribe_by_tmdbid movie_detail tv_detail search_media tid mt season).1 =
          bareSubData tid mt season) ∧
      (∀ rs r, search_media (toString tid) = .ok rs →
        rs.find? (fun r => r.tmdb_id == some tid) = some r →
        (subscribe_by_tmdbid movie_detail tv_detail search_media tid mt season).1 =
          { bareSubData tid mt season with
              name := some r.title, year := some r.year,
              poster := some r.poster_path, backdrop := some r.backdrop_path,
              vote := some r.vote_average, description := some r.overview })) := by
  constructor
  · cases hdet : (if mt = "电影" then movie_detail tid else tv_detail tid) with
    | error e =>
      cases hs : search_media (toString tid) with
      | error e2 =>
        simp only [subscribe_by_tmdbid]
        rw [hdet]
        simp [hs, addSubmissions]
      | ok rs =>
        cases hf : rs.find? (fun r => r.tmdb_id == some tid) with
        | none =>
          simp only [subscribe_by_tmdbid]
          rw [hdet]
          simp [hs, hf, addSubmissions]
        | some r =>
          simp only [subscribe_by_tmdbid]
          rw [hdet]
          simp [hs, hf, addSubmissions]
    | ok od =>
      cases od with
      | none =>
        simp only [subscribe_by_tmdbid]
        rw [hdet]
        simp [addSubmissions]
      | some d =>
        simp only [subscribe_by_tmdbid]
        rw [hdet]
        simp [addSubmissions]
  · intro hdet
    refine ⟨?_, fun hs => ?_, fun rs hs hf => ?_, fun rs r hs hf => ?_⟩
    · cases hs : search_media (toString tid) with
      | error e2 =>
        simp only [subscribe_by_tmdbid]
        rw [hdet]
        simp [hs]
      | ok rs =>
        cases hf : rs.find? (fun r => r.tmdb_id == some tid) with
        | none =>
          simp only [subscribe_by_tmdbid]
          rw [hdet]
          simp [hs, hf]
        | some r =>
          simp only [subscribe_by_tmdbid]
          rw [hdet]
          simp [hs, hf]
    · simp only [subscribe_by_tmdbid]
      rw [hdet]
      cases season with
      | none => simp [hs, bareSubData]
      | some s =>
        by_cases htv : mt = "电视剧" <;> simp [hs, bareSubData, htv]
    · simp only [subscribe_by_tmdbid]
      rw [hdet]
      cases season with
      | none => simp [hs, hf, bareSubData]
      | some s =>
        by_cases htv : mt = "电视剧" <;> simp [hs, hf, bareSubData, htv]
    · simp only [subscribe_by_tmdbid]
      rw [hdet]
      cases season with
      | none => simp [hs, hf, bareSubData, setD]
      | some s =>
        by_cases htv : mt = "电视剧" <;> simp [hs, hf, bareSubData, setD, htv]

/-- Witness for C9: both the detail call and the fallback search raise,
yet exactly one bare submission is made. -/
theorem C9_subscribe_by_tmdbid_fallback_witness :
    (if ("电视剧" : String) = "电影" then tmdbRaise 7 else tmdbRaise 7) = .error () ∧
    searchRaise (toString (7 : Int)) = .error () ∧
    addSubmissions
        (subscribe_by_tmdbid tmdbRaise tmdbRaise searchRaise 7 "电视剧" (some 2)).2 =
      [(subscribe_by_tmdbid tmdbRaise tmdbRaise searchRaise 7 "电视剧" (some 2)).1] ∧
    MPCall.searchCall (toString (7 : Int)) ∈
      (subscribe_by_tmdbid tmdbRaise tmdbRaise searchRaise 7 "电视剧" (some 2)).2 ∧
    (subscribe_by_tmdbid tmdbRaise tmdbRaise searchRaise 7 "电视剧" (some 2)).1 =
      bareSubData 7 "电视剧" (some 2) :=
  ⟨rfl, rfl,
   (C9_subscribe_by_tmdbid_fallback tmdbRaise tmdbRaise searchRaise 7 "电视剧"
     (some 2)).1,
   ((C9_subscribe_by_tmdbid_fallback tmdbRaise tmdbRaise searchRaise 7 "电视剧"
     (some 2)).2 rfl).1,
   (((C9_subscribe_by_tmdbid_fallback tmdbRaise tmdbRaise searchRaise 7 "电视剧"
     (some 2)).2 rfl).2).1 rfl⟩
